import Mathlib

/-!
Navidrome Subsonic playlist handlers.

A shallow embedding of `server/subsonic/playlists.go`.

* Handlers are state-passing functions over a `World`: the datastore state, a
  ghost log of the collaborator calls made so far, and the clock.
* `model.DataStore` / `model.PlaylistRepository` and `core.Playlists` are Go
  interfaces; they are the fields of `DataStore` and `Router`.
* Go's `(value, error)` results are pairs whose error component is an
  `Option Error` (`none` is `nil`); a nil `*responses.Subsonic` is `none`.
* Logging (`log.Error`, `log.Debug`, `log.Trace`) has no effect on results and
  is left out.
-/

set_option autoImplicit false

namespace Navidrome

/-! ## Errors -/

/-- Subsonic response codes used by this file (`responses.Error...`). -/
inductive ResponseCode where
  | ErrorGeneric
  | ErrorMissingParameter
  | ErrorAuthorizationFail
  | ErrorDataNotFound
deriving DecidableEq, Repr

/-- Go `error` values that reach these handlers: the sentinels
`model.ErrNotFound` and `model.ErrNotAuthorized`, the spec's InvalidOperation,
`errors.New msg`, an error wrapping one error (`fmt.Errorf("...%w", inner)`),
an error wrapping two (`errors.Join`, or two `%w`; more are nested joins), and
the Subsonic error built by `newError`. -/
inductive Error where
  | ErrNotFound
  | ErrNotAuthorized
  | ErrInvalidOperation
  | New (msg : String)
  | Wrap (msg : String) (inner : Error)
  | Join (left right : Error)
  | Subsonic (code : ResponseCode) (msg : String)
deriving DecidableEq, Repr

/-- Go `errors.Is err target`: `err` is `target`, or an error in the tree that
`err` unwraps to is. The handlers only ask for the two sentinels, each a
single value, so being equal to the target is being that value. -/
def errorsIs : Error → Error → Bool
  | Error.Wrap msg inner, target =>
      decide (Error.Wrap msg inner = target) || errorsIs inner target
  | Error.Join left right, target =>
      decide (Error.Join left right = target) || errorsIs left target ||
        errorsIs right target
  | err, target => decide (err = target)

/-- Modelled from the spec: `newError` of the subsonic package (helpers, not
shown), which builds the response signal for a response code and message. -/
def newError (code : ResponseCode) (msg : String) : Error :=
  Error.Subsonic code msg

/-! ## Data model -/

/-- Timestamps (`time.Time`). -/
abbrev Time := Nat

/-- The query descriptor of a smart playlist (`criteria.Criteria`). -/
structure Criteria where
  Expression : String
deriving DecidableEq, Repr

/-- The fields of `model.Playlist` this file reads or writes. The Track
Reference List is the ordered sequence of track identifiers of the spec; the
total duration is in whole seconds. -/
structure Playlist where
  ID : String := ""
  Name : String := ""
  Comment : String := ""
  Duration : Int := 0
  SongCount : Int := 0
  OwnerName : String := ""
  OwnerID : String := ""
  Public : Bool := false
  Tracks : List String := []
  Rules : Option Criteria := none
  CreatedAt : Time := 0
  UpdatedAt : Time := 0
deriving DecidableEq, Repr

/-- Modelled from the spec: `Playlist.IsSmartPlaylist` (model package, not
shown): the kind is determined by presence of a query descriptor. -/
def Playlist.IsSmartPlaylist (pls : Playlist) : Bool :=
  pls.Rules.isSome

/-- Modelled from the spec: `Playlist.AddTracks` (model package, not shown),
the Append of the Track Reference List: appends in the given order to the
tail, without validation; a no-op on empty input. -/
def Playlist.AddTracks (pls : Playlist) (ids : List String) : Playlist :=
  { pls with Tracks := pls.Tracks ++ ids }

/-- Modelled from the spec: RemoveAt of the Track Reference List, as one pass
over the snapshot: the element at (0-based) position `i` is dropped when `i`
is among `positions`; positions that match no element are ignored. -/
def removeAtFrom (positions : List Int) : Nat → List String → List String
  | _, [] => []
  | i, t :: ts =>
      if (i : Int) ∈ positions then removeAtFrom positions (i + 1) ts
      else t :: removeAtFrom positions (i + 1) ts

/-- Modelled from the spec: `Playlist.RemoveTracks` (model package, not
shown), RemoveAt applied to the playlist's list. -/
def Playlist.RemoveTracks (pls : Playlist) (positions : List Int) : Playlist :=
  { pls with Tracks := removeAtFrom positions 0 pls.Tracks }

/-- Modelled from the spec: `Playlist.MediaFiles` (model package, not shown):
the tracks of the playlist in stored order. -/
def Playlist.MediaFiles (pls : Playlist) : List String :=
  pls.Tracks

/-- The acting user (`model.User`). -/
structure User where
  ID : String := ""
  UserName : String := ""
deriving DecidableEq, Repr

/-- The request context; authentication has already put the acting user in. -/
structure Context where
  user : User
deriving DecidableEq, Repr

/-- Modelled from the spec: `getUser` (not shown), which yields the acting
user for the current request context. -/
def getUser (ctx : Context) : User :=
  ctx.user

/-- An inbound request: its context and `r.URL.Query()`, a map from parameter
name to the values supplied for it. A key that is present always has at least
one value, so a present entry is its first value and the remaining ones. -/
structure Request where
  ctx : Context
  query : String → Option (String × List String)

/-- Go `r.Context()`. -/
def Request.Context (r : Request) : Context :=
  r.ctx

/-- Modelled from the spec: `utils.ParamString` (not shown): the first value
supplied for `param`, or the empty string. -/
def ParamString (r : Request) (param : String) : String :=
  match r.query param with
  | some (v, _) => v
  | none => ""

/-- Modelled from the spec: `utils.ParamStrings` (not shown): all values
supplied for `param`, in order. -/
def ParamStrings (r : Request) (param : String) : List String :=
  match r.query param with
  | some (v, vs) => v :: vs
  | none => []

/-- Modelled from the spec: `requiredParamString` (not shown): a required
parameter that is missing is a distinct error. -/
def requiredParamString (r : Request) (param : String) : Except Error String :=
  let p := ParamString r param
  if p = "" then
    Except.error (newError ResponseCode.ErrorMissingParameter
      ("required parameter is missing: " ++ param))
  else Except.ok p

/-! ## Responses -/

/-- Go `int32(x)` for a Go `int`: wraps to 32 bits, two's complement. -/
def toInt32 (x : Int) : Int :=
  (x + 2 ^ 31) % 2 ^ 32 - 2 ^ 31

/-- The playlist summary (`responses.Playlist`). -/
structure PlaylistSummary where
  Id : String := ""
  Name : String := ""
  Comment : String := ""
  SongCount : Int := 0
  Duration : Int := 0
  Public : Bool := false
  Owner : String := ""
  Created : Time := 0
  Changed : Time := 0
  CoverArt : String := ""
deriving DecidableEq, Repr

/-- A resolved track entry (`responses.Child`). -/
structure Child where
  Id : String
  Title : String
  Duration : Int
deriving DecidableEq, Repr

/-- The summary plus the resolved entries (`responses.PlaylistWithSongs`). -/
structure PlaylistWithSongs where
  Playlist : PlaylistSummary
  Entry : List Child
deriving DecidableEq, Repr

/-- The response envelope (`responses.Subsonic`), with the two fields these
handlers fill. -/
structure Subsonic where
  Playlists : Option (List PlaylistSummary) := none
  Playlist : Option PlaylistWithSongs := none
deriving DecidableEq, Repr

/-- Modelled from the spec: `newResponse` (not shown): the empty successful
envelope. -/
def newResponse : Subsonic :=
  { Playlists := none, Playlist := none }

/-! ## Collaborators -/

/-- The interface `model.DataStore` with its `Playlist(ctx)` repository, over
an abstract store state. `Put` receives a pointer: it returns the entity as it
leaves it (with the assigned ID) next to the new store and its error. -/
structure DataStore (σ : Type) where
  Get : Context → σ → String → Except Error Playlist
  GetAll : Context → σ → String → Except Error (List Playlist)
  GetWithTracks : Context → σ → String → Bool → σ × Except Error Playlist
  Put : Context → σ → Playlist → σ × Playlist × Option Error
  Delete : Context → σ → String → σ × Option Error

/-- The receiver `api *Router`: the datastore `api.ds`, the interface method
`api.playlists.Update`, and the helpers of other files that the handlers
call. -/
structure Router (σ : Type) where
  ds : DataStore σ
  Update : Context → σ → String → Option String → Option String → Option Bool →
    List String → List Int → σ × Option Error
  ParamInts : Request → String → List Int
  ParamBool : Request → String → Bool → Bool
  CoverArtID : Playlist → String
  childrenFromMediaFiles : Context → List String → List Child

/-- A collaborator call, as recorded in the ghost log. -/
inductive Call where
  | WithTx
  | Get (id : String)
  | GetAll (sort : String)
  | GetWithTracks (id : String) (refresh : Bool)
  | Put (pls : Playlist)
  | Delete (id : String)
  | Update (id : String) (name comment : Option String) (pub : Option Bool)
      (idsToAdd : List String) (idxToRemove : List Int)
deriving DecidableEq, Repr

/-- The state a handler runs in. -/
structure World (σ : Type) where
  store : σ
  calls : List Call
  now : Time

/-- Append a call to the ghost log. -/
def World.record {σ : Type} (w : World σ) (c : Call) : World σ :=
  { w with calls := w.calls ++ [c] }

/-- Modelled from the spec: `DataStore.WithTx` (persistence, not shown): runs
the closure in one transaction; when the closure returns an error all its
store changes roll back. The extra result `α` carries the variables the
closure captures and assigns. -/
def WithTx {σ α : Type} (f : World σ → (α × Option Error) × World σ)
    (w : World σ) : (α × Option Error) × World σ :=
  match f (w.record Call.WithTx) with
  | ((a, none), w1) => ((a, none), w1)
  | ((a, some err), w1) => ((a, some err), { w1 with store := w.store })

/-! ## The handlers of playlists.go -/

/-- `buildPlaylist`; `now` is the value of `time.Now()`. -/
def buildPlaylist {σ : Type} (api : Router σ) (now : Time) (p : Playlist) :
    PlaylistSummary :=
  let pls : PlaylistSummary := {}
  let pls := { pls with Id := p.ID }
  let pls := { pls with Name := p.Name }
  let pls := { pls with Comment := p.Comment }
  let pls := { pls with SongCount := toInt32 p.SongCount }
  let pls := { pls with Owner := p.OwnerName }
  let pls := { pls with Duration := toInt32 p.Duration }
  let pls := { pls with Public := p.Public }
  let pls := { pls with Created := p.CreatedAt }
  let pls := { pls with CoverArt := api.CoverArtID p }
  if p.IsSmartPlaylist then
    { pls with Changed := now }
  else
    { pls with Changed := p.UpdatedAt }

/-- `buildPlaylistWithSongs`. -/
def buildPlaylistWithSongs {σ : Type} (api : Router σ) (now : Time)
    (ctx : Context) (p : Playlist) : PlaylistWithSongs :=
  let pls : PlaylistWithSongs := { Playlist := buildPlaylist api now p, Entry := [] }
  { pls with Entry := api.childrenFromMediaFiles ctx p.MediaFiles }

/-- `GetPlaylists`. -/
def GetPlaylists {σ : Type} (api : Router σ) (r : Request) (w : World σ) :
    (Option Subsonic × Option Error) × World σ :=
  let ctx := r.Context
  let w1 := w.record (Call.GetAll "name")
  match api.ds.GetAll ctx w.store "name" with
  | Except.error err => ((none, some err), w1)
  | Except.ok allPls =>
    let playlists := allPls.map (buildPlaylist api w.now)
    let response := newResponse
    let response := { response with Playlists := some playlists }
    ((some response, none), w1)

/-- The unexported `getPlaylist`. -/
def getPlaylist {σ : Type} (api : Router σ) (ctx : Context) (id : String)
    (w : World σ) : (Option Subsonic × Option Error) × World σ :=
  match api.ds.GetWithTracks ctx w.store id true with
  | (s1, res) =>
    let w1 : World σ := { (w.record (Call.GetWithTracks id true)) with store := s1 }
    match res with
    | Except.error err =>
      if errorsIs err Error.ErrNotFound then
        ((none, some (newError ResponseCode.ErrorDataNotFound "Directory not found")), w1)
      else
        ((none, some err), w1)
    | Except.ok pls =>
      let response := newResponse
      let response :=
        { response with Playlist := some (buildPlaylistWithSongs api w.now ctx pls) }
      ((some response, none), w1)

/-- `GetPlaylist`. -/
def GetPlaylist {σ : Type} (api : Router σ) (r : Request) (w : World σ) :
    (Option Subsonic × Option Error) × World σ :=
  let ctx := r.Context
  match requiredParamString r "id" with
  | Except.error err => ((none, some err), w)
  | Except.ok id => getPlaylist api ctx id w

/-- The closure that `create` hands to `WithTx`. Its first result is the
captured variable `playlistId` as the closure leaves it. -/
def createTx {σ : Type} (api : Router σ) (ctx : Context) (playlistId name : String)
    (ids : List String) (w : World σ) : (String × Option Error) × World σ :=
  let owner := getUser ctx
  let chosen : Except Error Playlist × World σ :=
    if playlistId ≠ "" then
      let w1 := w.record (Call.Get playlistId)
      match api.ds.Get ctx w.store playlistId with
      | Except.error err => (Except.error err, w1)
      | Except.ok pls =>
        if owner.ID ≠ pls.OwnerID then (Except.error Error.ErrNotAuthorized, w1)
        else (Except.ok pls, w1)
    else
      let pls : Playlist := { Name := name }
      let pls := { pls with OwnerID := owner.ID }
      (Except.ok pls, w)
  match chosen with
  | (Except.error err, w1) => ((playlistId, some err), w1)
  | (Except.ok pls, w1) =>
    let pls := { pls with Tracks := [] }
    let pls := pls.AddTracks ids
    match api.ds.Put ctx w1.store pls with
    | (s2, pls2, err) =>
      ((pls2.ID, err), { (w1.record (Call.Put pls)) with store := s2 })

/-- The unexported `create`. -/
def create {σ : Type} (api : Router σ) (ctx : Context) (playlistId name : String)
    (ids : List String) (w : World σ) : (String × Option Error) × World σ :=
  WithTx (createTx api ctx playlistId name ids) w

/-- `CreatePlaylist`. -/
def CreatePlaylist {σ : Type} (api : Router σ) (r : Request) (w : World σ) :
    (Option Subsonic × Option Error) × World σ :=
  let ctx := r.Context
  let songIds := ParamStrings r "songId"
  let playlistId := ParamString r "playlistId"
  let name := ParamString r "name"
  if playlistId = "" ∧ name = "" then
    ((none, some (Error.New "required parameter name is missing")), w)
  else
    match create api ctx playlistId name songIds w with
    | ((_, some err), w1) => ((none, some err), w1)
    | ((id, none), w1) => getPlaylist api ctx id w1

/-- `DeletePlaylist`. -/
def DeletePlaylist {σ : Type} (api : Router σ) (r : Request) (w : World σ) :
    (Option Subsonic × Option Error) × World σ :=
  match requiredParamString r "id" with
  | Except.error err => ((none, some err), w)
  | Except.ok id =>
    match api.ds.Delete r.Context w.store id with
    | (s1, err) =>
      let w1 : World σ := { (w.record (Call.Delete id)) with store := s1 }
      match err with
      | none => ((some newResponse, none), w1)
      | some e =>
        if errorsIs e Error.ErrNotAuthorized then
          ((none, some (newError ResponseCode.ErrorAuthorizationFail "")), w1)
        else
          ((none, some e), w1)

/-- `UpdatePlaylist`. -/
def UpdatePlaylist {σ : Type} (api : Router σ) (r : Request) (w : World σ) :
    (Option Subsonic × Option Error) × World σ :=
  match requiredParamString r "playlistId" with
  | Except.error err => ((none, some err), w)
  | Except.ok playlistId =>
    let songsToAdd := ParamStrings r "songIdToAdd"
    let songIndexesToRemove := api.ParamInts r "songIndexToRemove"
    let plsName : Option String :=
      match r.query "name" with
      | some s => some s.1
      | none => none
    let comment : Option String :=
      match r.query "comment" with
      | some c => some c.1
      | none => none
    let pub : Option Bool :=
      match r.query "public" with
      | some _ => some (api.ParamBool r "public" false)
      | none => none
    match api.Update r.Context w.store playlistId plsName comment pub songsToAdd
        songIndexesToRemove with
    | (s1, err) =>
      let w1 : World σ :=
        { (w.record (Call.Update playlistId plsName comment pub songsToAdd
            songIndexesToRemove)) with store := s1 }
      match err with
      | none => ((some newResponse, none), w1)
      | some e =>
        if errorsIs e Error.ErrNotAuthorized then
          ((none, some (newError ResponseCode.ErrorAuthorizationFail "")), w1)
        else
          ((none, some e), w1)

/-! ## The Mutation Engine -/

/-- Modelled from the spec: the aggregates of step 6, recomputed from the
Track Reference List: the count is its length, the total duration adds up the
catalog durations of its tracks (a track the catalog no longer has adds
nothing). -/
def refreshCounters (catalog : String → Option Int) (pls : Playlist) : Playlist :=
  { pls with
    SongCount := (pls.Tracks.length : Int)
    Duration := (pls.Tracks.filterMap catalog).sum }

/-- Modelled from the spec: step 3 of Update: each of the three optional
fields is changed only when it is present. -/
def applyMetadata (name comment : Option String) (pub : Option Bool)
    (pls : Playlist) : Playlist :=
  let pls := match name with
    | some n => { pls with Name := n }
    | none => pls
  let pls := match comment with
    | some c => { pls with Comment := c }
    | none => pls
  match pub with
  | some b => { pls with Public := b }
  | none => pls

/-- Modelled from the spec: `Update` of the playlists service (core package,
not shown), the Mutation Engine's steps 1 to 7: load (NotFound when absent),
authorize (NotAuthorized for a non-owner), apply the present metadata fields,
reject a track-list edit of a smart playlist (InvalidOperation), remove by
position against the snapshot, then append, recompute the aggregates, persist;
any failure leaves the store as it was. -/
def Playlists.Update {σ : Type} (ds : DataStore σ) (catalog : String → Option Int)
    (ctx : Context) (s : σ) (playlistID : String) (name comment : Option String)
    (pub : Option Bool) (idsToAdd : List String) (idxToRemove : List Int) :
    σ × Option Error :=
  match ds.Get ctx s playlistID with
  | Except.error err => (s, some err)
  | Except.ok pls =>
    if (getUser ctx).ID ≠ pls.OwnerID then (s, some Error.ErrNotAuthorized)
    else
      let pls := applyMetadata name comment pub pls
      if pls.IsSmartPlaylist ∧ (idsToAdd ≠ [] ∨ idxToRemove ≠ []) then
        (s, some Error.ErrInvalidOperation)
      else
        let pls := pls.RemoveTracks idxToRemove
        let pls := pls.AddTracks idsToAdd
        let pls := refreshCounters catalog pls
        match ds.Put ctx s pls with
        | (s1, _, none) => (s1, none)
        | (_, _, some err) => (s, some err)

/-- The router whose playlists service is the Mutation Engine running over the
router's own datastore. -/
def withEngine {σ : Type} (api : Router σ) (catalog : String → Option Int) : Router σ :=
  { api with Update := Playlists.Update api.ds catalog }

/-! ## An in-memory datastore

The playlist repository and the parameter decoders live in other packages.
This section gives a small implementation of each interface, following the
spec, on which the handlers can be run on concrete inputs. -/

/-- The in-memory store: the playlists, oldest first. -/
abbrev MemStore := List Playlist

/-- Modelled from the spec: `Get` of the playlist repository (persistence, not
shown), over a list: point lookup, NotFound when no entity has the ID. -/
def memGet (_ctx : Context) (s : MemStore) (id : String) : Except Error Playlist :=
  match s.find? (fun p => decide (p.ID = id)) with
  | some p => Except.ok p
  | none => Except.error Error.ErrNotFound

/-- The ID given to the next new entity: one letter per stored entity, plus
one. -/
def memNewID (s : MemStore) : String :=
  String.mk (List.replicate (s.length + 1) 'p')

/-- Modelled from the spec: `Put` of the playlist repository (persistence, not
shown), over a list: an entity without ID is added under a new ID, assigned at
creation; one with an ID replaces the stored entity of that ID, the ID staying
as it is (NotFound when there is none). -/
def memPut (_ctx : Context) (s : MemStore) (p : Playlist) :
    MemStore × Playlist × Option Error :=
  if p.ID = "" then
    let q := { p with ID := memNewID s }
    (s ++ [q], q, none)
  else if s.any (fun x => decide (x.ID = p.ID)) then
    (s.map (fun x => if x.ID = p.ID then p else x), p, none)
  else
    (s, p, some Error.ErrNotFound)

/-- Modelled from the spec: `Delete` of the playlist repository (persistence,
not shown), over a list: NotFound when absent, NotAuthorized for a non-owner,
else the entity is removed, so that a later Get returns NotFound. -/
def memDelete (ctx : Context) (s : MemStore) (id : String) : MemStore × Option Error :=
  match s.find? (fun p => decide (p.ID = id)) with
  | none => (s, some Error.ErrNotFound)
  | some p =>
    if (getUser ctx).ID ≠ p.OwnerID then (s, some Error.ErrNotAuthorized)
    else (s.filter (fun x => decide (x.ID ≠ id)), none)

/-- Modelled from the spec: the datastore (persistence, not shown) as the
in-memory implementation of the `DataStore` interface. -/
def memDataStore : DataStore MemStore where
  Get := memGet
  GetAll := fun _ s _ => Except.ok s
  GetWithTracks := fun ctx s id _ => (s, memGet ctx s id)
  Put := memPut
  Delete := memDelete

/-- Decimal digits to a number. -/
def parseDigits : List Char → Option Nat → Option Nat
  | [], acc => acc
  | c :: cs, acc =>
      if '0' ≤ c ∧ c ≤ '9' then
        parseDigits cs (some (acc.getD 0 * 10 + (c.toNat - '0'.toNat)))
      else none

/-- A decimal integer with an optional minus sign. -/
def parseInt (s : String) : Option Int :=
  match s.data with
  | '-' :: cs => (parseDigits cs none).map (fun n => - (n : Int))
  | cs => (parseDigits cs none).map (fun n => (n : Int))

/-- Modelled from the spec: the router over the in-memory store, with the
Mutation Engine as playlists service and typed accessors for integer lists and
booleans (`utils.ParamInts`, `utils.ParamBool`, not shown). -/
def memRouter : Router MemStore where
  ds := memDataStore
  Update := Playlists.Update memDataStore (fun _ => some 180)
  ParamInts := fun r param => (ParamStrings r param).filterMap parseInt
  ParamBool := fun r param dflt =>
    if ParamString r param = "" then dflt else decide (ParamString r param = "true")
  CoverArtID := fun p => "pl-" ++ p.ID
  childrenFromMediaFiles := fun _ ids =>
    ids.map (fun id => { Id := id, Title := "", Duration := 180 })

/-- A user. -/
def alice : User := { ID := "u-alice", UserName := "alice" }

/-- Another user. -/
def bob : User := { ID := "u-bob", UserName := "bob" }

/-- An explicit playlist of alice with tracks a, b, c. -/
def plsABC : Playlist :=
  { ID := "pl-1", Name := "mix", OwnerID := "u-alice", OwnerName := "alice",
    Tracks := ["a", "b", "c"], SongCount := 3, Duration := 540, UpdatedAt := 7 }

/-- A smart playlist of alice. -/
def plsSmart : Playlist :=
  { ID := "pl-2", Name := "recent", OwnerID := "u-alice", OwnerName := "alice",
    Rules := some { Expression := "year > 2020" }, UpdatedAt := 9 }

/-- A store holding both playlists. -/
def store0 : MemStore := [plsABC, plsSmart]

/-- The initial world over `store0`. -/
def world0 : World MemStore := { store := store0, calls := [], now := 100 }

/-- A request built from a list of (key, first value, other values). -/
def mkRequest (u : User) (params : List (String × String × List String)) : Request where
  ctx := { user := u }
  query := fun k => (params.find? (fun e => decide (e.1 = k))).map (fun e => e.2)

end Navidrome

/-! ## Theorems -/

namespace Navidrome

/-- The helper `create` on an existing playlist whose owner is the acting
user: the result, the log and the store in terms of the one `Put`. -/
theorem create_owner_eq {σ : Type} (api : Router σ) (ctx : Context) (w : World σ)
    (P : Playlist) (name : String) (ids : List String)
    (hid : P.ID ≠ "") (hget : api.ds.Get ctx w.store P.ID = Except.ok P)
    (howner : (getUser ctx).ID = P.OwnerID) :
    (create api ctx P.ID name ids w).1 =
        ((api.ds.Put ctx w.store { P with Tracks := ids }).2.1.ID,
         (api.ds.Put ctx w.store { P with Tracks := ids }).2.2) ∧
    (create api ctx P.ID name ids w).2.calls =
        w.calls ++ [Call.WithTx, Call.Get P.ID, Call.Put { P with Tracks := ids }] ∧
    (create api ctx P.ID name ids w).2.store =
        (if (api.ds.Put ctx w.store { P with Tracks := ids }).2.2 = none
         then (api.ds.Put ctx w.store { P with Tracks := ids }).1 else w.store) := by
  obtain ⟨⟨Get, GetAll, GetWithTracks, Put, Delete⟩, Update, PInts, PBool, Cover, children⟩ := api
  simp only [] at hget
  unfold create WithTx createTx
  simp only [World.record, hid, hget, howner, Playlist.AddTracks, ne_eq, not_false_eq_true,
    not_true_eq_false, ite_true, ite_false, List.nil_append, List.append_assoc,
    List.singleton_append]
  rcases hput : Put ctx w.store { P with Tracks := ids } with ⟨s2, p2, _ | e⟩ <;>
    simp [hput]

/-- The helper `create` without an ID: no lookup, one `Put` of a new
entity. -/
theorem create_new_eq {σ : Type} (api : Router σ) (ctx : Context) (w : World σ)
    (name : String) (ids : List String) :
    (create api ctx "" name ids w).1 =
        ((api.ds.Put ctx w.store
            { Name := name, OwnerID := (getUser ctx).ID, Tracks := ids }).2.1.ID,
         (api.ds.Put ctx w.store
            { Name := name, OwnerID := (getUser ctx).ID, Tracks := ids }).2.2) ∧
    (create api ctx "" name ids w).2.calls =
        w.calls ++ [Call.WithTx,
          Call.Put { Name := name, OwnerID := (getUser ctx).ID, Tracks := ids }] ∧
    (create api ctx "" name ids w).2.store =
        (if (api.ds.Put ctx w.store
              { Name := name, OwnerID := (getUser ctx).ID, Tracks := ids }).2.2 = none
         then (api.ds.Put ctx w.store
              { Name := name, OwnerID := (getUser ctx).ID, Tracks := ids }).1
         else w.store) := by
  obtain ⟨⟨Get, GetAll, GetWithTracks, Put, Delete⟩, Update, PInts, PBool, Cover, children⟩ := api
  unfold create WithTx createTx
  simp only [World.record, Playlist.AddTracks, ne_eq, not_true_eq_false, ite_false,
    List.nil_append, List.append_assoc, List.singleton_append]
  rcases hput : Put ctx w.store { Name := name, OwnerID := (getUser ctx).ID, Tracks := ids }
    with ⟨s2, p2, _ | e⟩ <;> simp [hput]

/-- C1: when the acting user is not the owner of the existing playlist P,
`create` on P.ID returns NotAuthorized for every name and every ids; it opens
the transaction and looks P up, never calls Put, and leaves the store, hence
the stored P, as it was. -/
theorem create_not_owner_rejected {σ : Type} (api : Router σ) (ctx : Context)
    (w : World σ) (P : Playlist) (name : String) (ids : List String)
    (hid : P.ID ≠ "") (hget : api.ds.Get ctx w.store P.ID = Except.ok P)
    (howner : (getUser ctx).ID ≠ P.OwnerID) :
    (create api ctx P.ID name ids w).1 = (P.ID, some Error.ErrNotAuthorized) ∧
    (create api ctx P.ID name ids w).2.calls = w.calls ++ [Call.WithTx, Call.Get P.ID] ∧
    (∀ q, Call.Put q ∈ (create api ctx P.ID name ids w).2.calls → Call.Put q ∈ w.calls) ∧
    (create api ctx P.ID name ids w).2.store = w.store ∧
    api.ds.Get ctx (create api ctx P.ID name ids w).2.store P.ID = Except.ok P := by
  have hres : create api ctx P.ID name ids w =
      ((P.ID, some Error.ErrNotAuthorized),
        { store := w.store, calls := w.calls ++ [Call.WithTx, Call.Get P.ID],
          now := w.now }) := by
    obtain ⟨⟨Get, GetAll, GetWithTracks, Put, Delete⟩, Update, PInts, PBool, Cover,
      children⟩ := api
    simp only [] at hget
    unfold create WithTx createTx
    simp [World.record, hid, hget, howner]
  rw [hres]
  refine ⟨rfl, rfl, ?_, rfl, hget⟩
  intro q hq
  simpa using hq

/-- C1, at a concrete input: bob calls `create` on alice's playlist. -/
theorem create_not_owner_rejected_witness :
    (create memRouter { user := bob } "pl-1" "other" ["z"] world0).1 =
        ("pl-1", some Error.ErrNotAuthorized) ∧
    (create memRouter { user := bob } "pl-1" "other" ["z"] world0).2.calls =
        [Call.WithTx, Call.Get "pl-1"] ∧
    (create memRouter { user := bob } "pl-1" "other" ["z"] world0).2.store = store0 :=
  have h := create_not_owner_rejected memRouter { user := bob } world0 plsABC "other" ["z"]
    (by decide) (by rfl) (by decide)
  ⟨h.1, h.2.1, h.2.2.2.1⟩

/-- C2: when the acting user owns the existing playlist P, whatever tracks P
held, `create` on P.ID hands to Put, in its one Put call, an entity whose
track list is exactly ids: same order, duplicates kept, same length, empty
when ids is empty, and no earlier track of P that is not in ids; the store
after a successful Put is the one Put produced. -/
theorem create_existing_persists_ids {σ : Type} (api : Router σ) (ctx : Context)
    (w : World σ) (P : Playlist) (name : String) (ids : List String)
    (hid : P.ID ≠ "") (hget : api.ds.Get ctx w.store P.ID = Except.ok P)
    (howner : (getUser ctx).ID = P.OwnerID) :
    ∃ stored : Playlist,
      (create api ctx P.ID name ids w).2.calls =
          w.calls ++ [Call.WithTx, Call.Get P.ID, Call.Put stored] ∧
      stored.Tracks = ids ∧
      stored.Tracks.length = ids.length ∧
      (ids = [] → stored.Tracks = []) ∧
      (∀ t, t ∈ P.Tracks → t ∉ ids → t ∉ stored.Tracks) ∧
      (create api ctx P.ID name ids w).1.2 = (api.ds.Put ctx w.store stored).2.2 ∧
      ((api.ds.Put ctx w.store stored).2.2 = none →
        (create api ctx P.ID name ids w).2.store = (api.ds.Put ctx w.store stored).1) := by
  obtain ⟨hres, hcalls, hstore⟩ := create_owner_eq api ctx w P name ids hid hget howner
  refine ⟨{ P with Tracks := ids }, hcalls, rfl, rfl, fun h => h, fun t _ hn => hn, ?_, ?_⟩
  · rw [hres]
  · intro hok
    rw [hstore, if_pos hok]

/-- C2, at a concrete input: alice replaces the tracks a, b, c of her playlist
by z, z; the in-memory store then holds exactly z, z for it. -/
theorem create_existing_persists_ids_witness :
    (∃ stored : Playlist,
      (create memRouter { user := alice } "pl-1" "other" ["z", "z"] world0).2.calls =
          [Call.WithTx, Call.Get "pl-1", Call.Put stored] ∧
      stored.Tracks = ["z", "z"]) ∧
    ((create memRouter { user := alice } "pl-1" "other" ["z", "z"] world0).2.store.map
        (fun p => (p.ID, p.Tracks))) = [("pl-1", ["z", "z"]), ("pl-2", [])] :=
  have h := create_existing_persists_ids memRouter { user := alice } world0 plsABC "other"
    ["z", "z"] (by decide) (by rfl) (by decide)
  ⟨h.imp (fun _ hs => ⟨hs.1, hs.2.1⟩), by decide⟩

/-- C3: `create` with an empty playlistId makes no lookup and no ownership
check: its calls are the transaction and one Put of a new entity with the
given name, the acting user as owner and the track list ids; it returns the
ID that entity has after Put together with the error of Put, the only error
it can return. -/
theorem create_new_playlist {σ : Type} (api : Router σ) (ctx : Context) (w : World σ)
    (name : String) (ids : List String) :
    ∃ fresh : Playlist,
      fresh.ID = "" ∧ fresh.Name = name ∧ fresh.OwnerID = (getUser ctx).ID ∧
      fresh.Tracks = ids ∧
      (create api ctx "" name ids w).2.calls = w.calls ++ [Call.WithTx, Call.Put fresh] ∧
      (∀ id, Call.Get id ∈ (create api ctx "" name ids w).2.calls → Call.Get id ∈ w.calls) ∧
      (create api ctx "" name ids w).1.1 = (api.ds.Put ctx w.store fresh).2.1.ID ∧
      (create api ctx "" name ids w).1.2 = (api.ds.Put ctx w.store fresh).2.2 ∧
      ((api.ds.Put ctx w.store fresh).2.2 ≠ some Error.ErrNotAuthorized →
        (create api ctx "" name ids w).1.2 ≠ some Error.ErrNotAuthorized) ∧
      (create api ctx "" name ids w).2.store =
        (if (api.ds.Put ctx w.store fresh).2.2 = none
         then (api.ds.Put ctx w.store fresh).1 else w.store) := by
  obtain ⟨hres, hcalls, hstore⟩ := create_new_eq api ctx w name ids
  refine ⟨{ Name := name, OwnerID := (getUser ctx).ID, Tracks := ids }, rfl, rfl, rfl, rfl,
    hcalls, ?_, ?_, ?_, ?_, hstore⟩
  · intro id hmem
    rw [hcalls] at hmem
    simpa using hmem
  · rw [hres]
  · rw [hres]
  · rw [hres]
    exact fun h => h

/-- C3, at a concrete input: bob creates a playlist; the in-memory store gains
one entity, owned by bob, and its new ID is returned. -/
theorem create_new_playlist_witness :
    (∃ fresh : Playlist,
      (create memRouter { user := bob } "" "road" ["z", "a"] world0).2.calls =
        [Call.WithTx, Call.Put fresh] ∧ fresh.Tracks = ["z", "a"]) ∧
    (create memRouter { user := bob } "" "road" ["z", "a"] world0).1 = ("ppp", none) ∧
    ((create memRouter { user := bob } "" "road" ["z", "a"] world0).2.store.map
      (fun p => (p.ID, p.Name, p.OwnerID, p.Tracks))) =
      [("pl-1", "mix", "u-alice", ["a", "b", "c"]), ("pl-2", "recent", "u-alice", []),
       ("ppp", "road", "u-bob", ["z", "a"])] :=
  have h := create_new_playlist memRouter { user := bob } world0 "road" ["z", "a"]
  ⟨h.imp (fun _ hs => ⟨hs.2.2.2.2.1, hs.2.2.2.1⟩), by decide, by decide⟩

/-- C4, refuted at a concrete input: alice calls `create` on her smart
playlist with one track id; no error comes back, Put receives the smart
playlist with that track list, and the in-memory store holds it afterwards. -/
theorem create_smart_accepted :
    plsSmart.IsSmartPlaylist = true ∧
    (getUser { user := alice }).ID = plsSmart.OwnerID ∧
    (create memRouter { user := alice } plsSmart.ID "other" ["z"] world0).1 =
        ("pl-2", none) ∧
    (create memRouter { user := alice } plsSmart.ID "other" ["z"] world0).2.calls =
        [Call.WithTx, Call.Get "pl-2", Call.Put { plsSmart with Tracks := ["z"] }] ∧
    (create memRouter { user := alice } plsSmart.ID "other" ["z"] world0).2.store =
        [plsABC, { plsSmart with Tracks := ["z"] }] := by
  decide

/-- C4, as amended: `create` does not look at the kind of the playlist. For a
smart playlist P owned by the acting user it passes to Put the entity P with
the track list ids, still smart with the query descriptor of P, and returns
the ID and the error Put leaves: it fails only when Put does. -/
theorem create_smart_passes_to_put {σ : Type} (api : Router σ) (ctx : Context)
    (w : World σ) (P : Playlist) (name : String) (ids : List String)
    (hid : P.ID ≠ "") (hget : api.ds.Get ctx w.store P.ID = Except.ok P)
    (howner : (getUser ctx).ID = P.OwnerID) (hsmart : P.IsSmartPlaylist = true) :
    ({ P with Tracks := ids } : Playlist).IsSmartPlaylist = true ∧
    ({ P with Tracks := ids } : Playlist).Rules = P.Rules ∧
    (create api ctx P.ID name ids w).2.calls =
        w.calls ++ [Call.WithTx, Call.Get P.ID, Call.Put { P with Tracks := ids }] ∧
    (create api ctx P.ID name ids w).1 =
        ((api.ds.Put ctx w.store { P with Tracks := ids }).2.1.ID,
         (api.ds.Put ctx w.store { P with Tracks := ids }).2.2) := by
  obtain ⟨hres, hcalls, _⟩ := create_owner_eq api ctx w P name ids hid hget howner
  exact ⟨hsmart, rfl, hcalls, hres⟩

/-- C4 as amended, at a concrete input: the smart playlist of alice. -/
theorem create_smart_passes_to_put_witness :
    (create memRouter { user := alice } "pl-2" "other" ["z"] world0).2.calls =
        [Call.WithTx, Call.Get "pl-2", Call.Put { plsSmart with Tracks := ["z"] }] ∧
    (create memRouter { user := alice } "pl-2" "other" ["z"] world0).1.2 = none :=
  have h := create_smart_passes_to_put memRouter { user := alice } world0 plsSmart "other"
    ["z"] (by decide) (by rfl) (by decide) (by decide)
  ⟨h.2.2.1, by decide⟩

/-- C10: when the acting user owns the existing playlist P, the entity
`create` passes to Put is P with only the track list changed: ID, name,
comment, owner, visibility, query descriptor and every other field are those
of P, whatever name was supplied; the returned ID is the one the entity has
after Put, which is P.ID for a datastore whose Put keeps the ID of an entity
that already has one. -/
theorem create_existing_frame {σ : Type} (api : Router σ) (ctx : Context)
    (w : World σ) (P : Playlist) (name : String) (ids : List String)
    (hid : P.ID ≠ "") (hget : api.ds.Get ctx w.store P.ID = Except.ok P)
    (howner : (getUser ctx).ID = P.OwnerID)
    (hkeep : ∀ (s : σ) (q : Playlist), q.ID ≠ "" → (api.ds.Put ctx s q).2.1.ID = q.ID) :
    ∃ stored : Playlist,
      (create api ctx P.ID name ids w).2.calls =
          w.calls ++ [Call.WithTx, Call.Get P.ID, Call.Put stored] ∧
      stored = { P with Tracks := stored.Tracks } ∧
      stored.ID = P.ID ∧ stored.Name = P.Name ∧ stored.Comment = P.Comment ∧
      stored.OwnerID = P.OwnerID ∧ stored.Public = P.Public ∧ stored.Rules = P.Rules ∧
      (create api ctx P.ID name ids w).1.1 = (api.ds.Put ctx w.store stored).2.1.ID ∧
      (create api ctx P.ID name ids w).1.1 = P.ID := by
  obtain ⟨hres, hcalls, _⟩ := create_owner_eq api ctx w P name ids hid hget howner
  refine ⟨{ P with Tracks := ids }, hcalls, rfl, rfl, rfl, rfl, rfl, rfl, rfl, ?_, ?_⟩
  · rw [hres]
  · rw [hres]
    exact hkeep w.store { P with Tracks := ids } hid

/-- Put of the in-memory store keeps the ID of an entity that has one. -/
theorem memPut_keeps_id (ctx : Context) (s : MemStore) (q : Playlist) (hq : q.ID ≠ "") :
    (memPut ctx s q).2.1.ID = q.ID := by
  unfold memPut
  rw [if_neg hq]
  split <;> rfl

/-- C10, at a concrete input: alice calls `create` on her playlist "mix" with
another name; Put receives the playlist still named "mix". -/
theorem create_existing_frame_witness :
    ∃ stored : Playlist,
      (create memRouter { user := alice } "pl-1" "other" ["z"] world0).2.calls =
          [Call.WithTx, Call.Get "pl-1", Call.Put stored] ∧
      stored.Name = "mix" ∧
      (create memRouter { user := alice } "pl-1" "other" ["z"] world0).1.1 = "pl-1" :=
  have h := create_existing_frame memRouter { user := alice } world0 plsABC "other" ["z"]
    (by decide) (by rfl) (by decide) (fun s q hq => memPut_keeps_id { user := alice } s q hq)
  h.imp (fun _ hs => ⟨hs.1, hs.2.2.2.1, hs.2.2.2.2.2.2.2.2.2⟩)


/-- C6: the summary `buildPlaylist` makes of p has Changed equal to
p.UpdatedAt when p is explicit (no query descriptor) and equal to the current
time when p is smart, whatever p.UpdatedAt is. -/
theorem buildPlaylist_changed {σ : Type} (api : Router σ) (now : Time) (p : Playlist) :
    (buildPlaylist api now p).Changed = (if p.IsSmartPlaylist then now else p.UpdatedAt) ∧
    (p.Rules = none → (buildPlaylist api now p).Changed = p.UpdatedAt) ∧
    (∀ q : Criteria, p.Rules = some q →
      ∀ t : Time, (buildPlaylist api now { p with UpdatedAt := t }).Changed = now) := by
  refine ⟨?_, ?_, ?_⟩
  · unfold buildPlaylist
    split <;> rfl
  · intro h
    unfold buildPlaylist
    simp [Playlist.IsSmartPlaylist, h]
  · intro q h t
    unfold buildPlaylist
    simp [Playlist.IsSmartPlaylist, h]

/-- The unexported `getPlaylist` makes exactly one datastore call. -/
theorem getPlaylist_calls {σ : Type} (api : Router σ) (ctx : Context) (id : String)
    (w : World σ) :
    (getPlaylist api ctx id w).2.calls = w.calls ++ [Call.GetWithTracks id true] := by
  obtain ⟨⟨Get, GetAll, GetWithTracks, Put, Delete⟩, Update, PInts, PBool, Cover, children⟩ := api
  unfold getPlaylist
  simp only [World.record]
  rcases hg : GetWithTracks ctx w.store id true with ⟨s1, err | pls⟩
  · simp only []
    split <;> rfl
  · rfl

/-- The helper `create` always opens the transaction first. -/
theorem create_calls_begin {σ : Type} (api : Router σ) (ctx : Context)
    (playlistId name : String) (ids : List String) (w : World σ) :
    ∃ rest, (create api ctx playlistId name ids w).2.calls = w.calls ++ Call.WithTx :: rest := by
  obtain ⟨⟨Get, GetAll, GetWithTracks, Put, Delete⟩, Update, PInts, PBool, Cover, children⟩ := api
  unfold create WithTx createTx
  simp only [World.record]
  by_cases hid : playlistId = ""
  · simp only [hid, ne_eq, not_true_eq_false, ite_false]
    rcases hput : Put ctx w.store _ with ⟨s2, p2, _ | e⟩ <;>
      exact ⟨_, by simp [hput]; rfl⟩
  · simp only [hid, ne_eq, not_false_eq_true, ite_true]
    rcases hget : Get ctx w.store playlistId with err | pls
    · exact ⟨[Call.Get playlistId], by simp⟩
    · by_cases ho : (getUser ctx).ID = pls.OwnerID
      · simp only [ho, not_true_eq_false, ite_false]
        rcases hput : Put ctx w.store _ with ⟨s2, p2, _ | e⟩ <;>
          exact ⟨_, by simp [hput]; rfl⟩
      · exact ⟨[Call.Get playlistId], by simp [ho]⟩


/-- `UpdatePlaylist` once the playlistId is decoded: the arguments it gives
to `Update`, and what it returns for each outcome of `Update`. -/
theorem UpdatePlaylist_eq {σ : Type} (api : Router σ) (r : Request) (w : World σ)
    (pid : String) (hpid : requiredParamString r "playlistId" = Except.ok pid) :
    (UpdatePlaylist api r w).2.calls =
      w.calls ++ [Call.Update pid ((r.query "name").map Prod.fst)
        ((r.query "comment").map Prod.fst)
        ((r.query "public").map (fun _ => api.ParamBool r "public" false))
        (ParamStrings r "songIdToAdd") (api.ParamInts r "songIndexToRemove")] ∧
    (UpdatePlaylist api r w).2.store =
      (api.Update r.Context w.store pid ((r.query "name").map Prod.fst)
        ((r.query "comment").map Prod.fst)
        ((r.query "public").map (fun _ => api.ParamBool r "public" false))
        (ParamStrings r "songIdToAdd") (api.ParamInts r "songIndexToRemove")).1 ∧
    (UpdatePlaylist api r w).1 =
      (match (api.Update r.Context w.store pid ((r.query "name").map Prod.fst)
        ((r.query "comment").map Prod.fst)
        ((r.query "public").map (fun _ => api.ParamBool r "public" false))
        (ParamStrings r "songIdToAdd") (api.ParamInts r "songIndexToRemove")).2 with
      | none => (some newResponse, none)
      | some e =>
        if errorsIs e Error.ErrNotAuthorized then
          (none, some (newError ResponseCode.ErrorAuthorizationFail ""))
        else (none, some e)) := by
  obtain ⟨ds, Update, PInts, PBool, Cover, children⟩ := api
  unfold UpdatePlaylist
  simp only [hpid, World.record]
  have hn : (match r.query "name" with
      | some s => some s.1
      | none => none) = (r.query "name").map Prod.fst := by
    cases r.query "name" <;> rfl
  have hc : (match r.query "comment" with
      | some s => some s.1
      | none => none) = (r.query "comment").map Prod.fst := by
    cases r.query "comment" <;> rfl
  have hp : (match r.query "public" with
      | some _ => some (PBool r "public" false)
      | none => none) = (r.query "public").map (fun _ => PBool r "public" false) := by
    cases r.query "public" <;> rfl
  rw [hn, hc, hp]
  rcases hu : Update r.Context w.store pid ((r.query "name").map Prod.fst)
      ((r.query "comment").map Prod.fst)
      ((r.query "public").map (fun _ => PBool r "public" false))
      (ParamStrings r "songIdToAdd") (PInts r "songIndexToRemove") with ⟨s1, _ | e⟩
  · exact ⟨rfl, rfl, rfl⟩
  · refine ⟨?_, ?_, ?_⟩ <;> simp only [] <;> split <;> rfl

/-- C7: once the playlistId is decoded, `UpdatePlaylist` calls `Update` with a
name that is absent exactly when the key "name" is not in the query and is
otherwise the first value supplied for it, so an empty string supplied as the
name is passed as present and empty; the same holds for "comment"; public is
absent exactly when the key "public" is not in the query. -/
theorem UpdatePlaylist_optional_fields {σ : Type} (api : Router σ) (r : Request)
    (w : World σ) (pid : String)
    (hpid : requiredParamString r "playlistId" = Except.ok pid) :
    ∃ (name comment : Option String) (pub : Option Bool),
      (UpdatePlaylist api r w).2.calls =
        w.calls ++ [Call.Update pid name comment pub (ParamStrings r "songIdToAdd")
          (api.ParamInts r "songIndexToRemove")] ∧
      (UpdatePlaylist api r w).2.store =
        (api.Update r.Context w.store pid name comment pub (ParamStrings r "songIdToAdd")
          (api.ParamInts r "songIndexToRemove")).1 ∧
      (name = none ↔ r.query "name" = none) ∧
      (∀ v vs, r.query "name" = some (v, vs) → name = some v) ∧
      (comment = none ↔ r.query "comment" = none) ∧
      (∀ v vs, r.query "comment" = some (v, vs) → comment = some v) ∧
      (pub = none ↔ r.query "public" = none) := by
  obtain ⟨hcalls, hstore, _⟩ := UpdatePlaylist_eq api r w pid hpid
  refine ⟨_, _, _, hcalls, hstore, ?_, ?_, ?_, ?_, ?_⟩
  · cases r.query "name" <;> simp
  · intro v vs h
    rw [h]
    rfl
  · cases r.query "comment" <;> simp
  · intro v vs h
    rw [h]
    rfl
  · cases r.query "public" <;> simp

/-- C7, at a concrete input: a request that supplies name as the empty string
and neither comment nor public. -/
theorem UpdatePlaylist_optional_fields_witness :
    ∃ (name comment : Option String) (pub : Option Bool),
      (UpdatePlaylist memRouter
        (mkRequest alice [("playlistId", "pl-1", []), ("name", "", [])]) world0).2.calls =
        [Call.Update "pl-1" name comment pub [] []] ∧
      name = some "" ∧ comment = none ∧ pub = none :=
  match UpdatePlaylist_optional_fields memRouter
      (mkRequest alice [("playlistId", "pl-1", []), ("name", "", [])]) world0 "pl-1"
      (by rfl) with
  | ⟨n, c, p, hcalls, _, _, hn, hc, _, hp⟩ =>
    ⟨n, c, p, hcalls, hn "" [] (by rfl), hc.mpr (by rfl), hp.mpr (by rfl)⟩

/-- `DeletePlaylist` once the id is decoded. -/
theorem DeletePlaylist_eq {σ : Type} (api : Router σ) (r : Request) (w : World σ)
    (id : String) (hid : requiredParamString r "id" = Except.ok id) :
    (DeletePlaylist api r w).1 =
      (match (api.ds.Delete r.Context w.store id).2 with
      | none => (some newResponse, none)
      | some e =>
        if errorsIs e Error.ErrNotAuthorized then
          (none, some (newError ResponseCode.ErrorAuthorizationFail ""))
        else (none, some e)) := by
  obtain ⟨⟨Get, GetAll, GetWithTracks, Put, Delete⟩, Update, PInts, PBool, Cover, children⟩ := api
  unfold DeletePlaylist
  simp only [hid, World.record]
  rcases hd : Delete r.Context w.store id with ⟨s1, _ | e⟩
  · rfl
  · simp only []
    split <;> rfl

/-- `CreatePlaylist` when validation passes: it continues with `create` on the
decoded parameters. -/
theorem CreatePlaylist_eq {σ : Type} (api : Router σ) (r : Request) (w : World σ)
    (h : ¬ (ParamString r "playlistId" = "" ∧ ParamString r "name" = "")) :
    CreatePlaylist api r w =
      (match create api r.Context (ParamString r "playlistId") (ParamString r "name")
          (ParamStrings r "songId") w with
      | ((_, some err), w1) => ((none, some err), w1)
      | ((id, none), w1) => getPlaylist api r.Context id w1) := by
  unfold CreatePlaylist
  simp only [h, if_false]


/-- C8, refuted at a concrete input: alice names a playlist that does not
exist. The helper `create` fails with NotFound and `CreatePlaylist` returns
that same error value, not a response signal; `DeletePlaylist` does the same
with the NotFound of Delete. -/
theorem handlers_notFound_returned_raw :
    (create memRouter { user := alice } "nope" "" [] world0).1.2 = some Error.ErrNotFound ∧
    (CreatePlaylist memRouter (mkRequest alice [("playlistId", "nope", [])]) world0).1 =
      (none, some Error.ErrNotFound) ∧
    (memRouter.ds.Delete { user := alice } world0.store "nope").2 = some Error.ErrNotFound ∧
    (DeletePlaylist memRouter (mkRequest alice [("id", "nope", [])]) world0).1 =
      (none, some Error.ErrNotFound) ∧
    Error.ErrNotFound ≠ newError ResponseCode.ErrorDataNotFound "Directory not found" := by
  decide

/-- The unexported `getPlaylist` when the lookup fails: NotFound becomes the
data-not-found signal, any other error is returned as it is. -/
theorem getPlaylist_error {σ : Type} (api : Router σ) (ctx : Context) (id : String)
    (w : World σ) (e : Error)
    (hfail : (api.ds.GetWithTracks ctx w.store id true).2 = Except.error e) :
    (getPlaylist api ctx id w).1 =
      (if errorsIs e Error.ErrNotFound then
        (none, some (newError ResponseCode.ErrorDataNotFound "Directory not found"))
      else (none, some e)) := by
  obtain ⟨⟨Get, GetAll, GetWithTracks, Put, Delete⟩, Update, PInts, PBool, Cover, children⟩ := api
  unfold getPlaylist
  simp only [World.record]
  rcases hg : GetWithTracks ctx w.store id true with ⟨s1, err | pls⟩
  · simp only [hg] at hfail
    cases hfail
    simp only []
    split <;> rfl
  · simp only [hg] at hfail
    cases hfail

/-- C8, as amended: when the call of the underlying operation that the handler
makes fails with an error e, `UpdatePlaylist` and `DeletePlaylist` answer with
the authorization-failure signal, not with e, if e is NotAuthorized, and
return e itself if it is not; `CreatePlaylist` returns such an e of `create`
itself. NotFound, plain or wrapped, is such an error, so all three return it
as it is. The unexported `getPlaylist` is where NotFound is mapped: a NotFound
failure of its lookup becomes the data-not-found signal, which differs from
the authorization-failure signal. -/
theorem handlers_error_signals {σ : Type} (api : Router σ) (r : Request) (w : World σ)
    (e : Error) :
    (∀ pid, requiredParamString r "playlistId" = Except.ok pid →
      (api.Update r.Context w.store pid ((r.query "name").map Prod.fst)
        ((r.query "comment").map Prod.fst)
        ((r.query "public").map (fun _ => api.ParamBool r "public" false))
        (ParamStrings r "songIdToAdd") (api.ParamInts r "songIndexToRemove")).2 = some e →
      (errorsIs e Error.ErrNotAuthorized = true →
        (UpdatePlaylist api r w).1 =
          (none, some (newError ResponseCode.ErrorAuthorizationFail ""))) ∧
      (errorsIs e Error.ErrNotAuthorized = false →
        (UpdatePlaylist api r w).1 = (none, some e))) ∧
    (∀ id, requiredParamString r "id" = Except.ok id →
      (api.ds.Delete r.Context w.store id).2 = some e →
      (errorsIs e Error.ErrNotAuthorized = true →
        (DeletePlaylist api r w).1 =
          (none, some (newError ResponseCode.ErrorAuthorizationFail ""))) ∧
      (errorsIs e Error.ErrNotAuthorized = false →
        (DeletePlaylist api r w).1 = (none, some e))) ∧
    (¬ (ParamString r "playlistId" = "" ∧ ParamString r "name" = "") →
      (create api r.Context (ParamString r "playlistId") (ParamString r "name")
        (ParamStrings r "songId") w).1.2 = some e →
      errorsIs e Error.ErrNotAuthorized = false →
      (CreatePlaylist api r w).1 = (none, some e)) ∧
    (errorsIs Error.ErrNotFound Error.ErrNotAuthorized = false ∧
      ∀ msg, errorsIs (Error.Wrap msg Error.ErrNotFound) Error.ErrNotAuthorized = false) ∧
    (∀ ctx id, (api.ds.GetWithTracks ctx w.store id true).2 = Except.error e →
      (errorsIs e Error.ErrNotFound = true →
        (getPlaylist api ctx id w).1 =
          (none, some (newError ResponseCode.ErrorDataNotFound "Directory not found"))) ∧
      (errorsIs e Error.ErrNotFound = false → (getPlaylist api ctx id w).1 = (none, some e))) ∧
    newError ResponseCode.ErrorDataNotFound "Directory not found" ≠
      newError ResponseCode.ErrorAuthorizationFail "" := by
  refine ⟨?_, ?_, ?_, ⟨by decide, fun msg => ?_⟩, ?_, by decide⟩
  · intro pid hpid hfail
    obtain ⟨_, _, hres⟩ := UpdatePlaylist_eq api r w pid hpid
    rw [hres, hfail]
    refine ⟨fun h => ?_, fun h => ?_⟩
    · simp [h]
    · simp [h]
  · intro id hid hfail
    rw [DeletePlaylist_eq api r w id hid, hfail]
    refine ⟨fun h => ?_, fun h => ?_⟩
    · simp [h]
    · simp [h]
  · intro hv hfail _
    rw [CreatePlaylist_eq api r w hv]
    rcases hc : create api r.Context (ParamString r "playlistId") (ParamString r "name")
        (ParamStrings r "songId") w with ⟨⟨id, _ | e2⟩, w1⟩
    · rw [hc] at hfail
      cases hfail
    · rw [hc] at hfail
      cases hfail
      rfl
  · simp [errorsIs]
  · intro ctx id hfail
    rw [getPlaylist_error api ctx id w e hfail]
    refine ⟨fun h => ?_, fun h => ?_⟩
    · simp [h]
    · simp [h]

/-- C8 as amended, at concrete inputs over the in-memory store: bob updating
or deleting the playlist of alice gets the authorization-failure signal; alice
updating, deleting or extending a playlist that does not exist gets the
NotFound error itself; looking that playlist up with `getPlaylist` gives the
data-not-found signal. -/
theorem handlers_error_signals_witness :
    (UpdatePlaylist memRouter
      (mkRequest bob [("playlistId", "pl-1", []), ("name", "mine", [])]) world0).1 =
      (none, some (newError ResponseCode.ErrorAuthorizationFail "")) ∧
    (UpdatePlaylist memRouter
      (mkRequest alice [("playlistId", "nope", []), ("songIdToAdd", "d", [])]) world0).1 =
      (none, some Error.ErrNotFound) ∧
    (DeletePlaylist memRouter (mkRequest bob [("id", "pl-1", [])]) world0).1 =
      (none, some (newError ResponseCode.ErrorAuthorizationFail "")) ∧
    (DeletePlaylist memRouter (mkRequest alice [("id", "nope", [])]) world0).1 =
      (none, some Error.ErrNotFound) ∧
    (CreatePlaylist memRouter (mkRequest alice [("playlistId", "nope", [])]) world0).1 =
      (none, some Error.ErrNotFound) ∧
    (getPlaylist memRouter { user := alice } "nope" world0).1 =
      (none, some (newError ResponseCode.ErrorDataNotFound "Directory not found")) :=
  ⟨((handlers_error_signals memRouter
      (mkRequest bob [("playlistId", "pl-1", []), ("name", "mine", [])]) world0
      Error.ErrNotAuthorized).1 "pl-1" (by rfl) (by decide)).1 (by decide),
   ((handlers_error_signals memRouter
      (mkRequest alice [("playlistId", "nope", []), ("songIdToAdd", "d", [])]) world0
      Error.ErrNotFound).1 "nope" (by rfl) (by decide)).2 (by decide),
   ((handlers_error_signals memRouter (mkRequest bob [("id", "pl-1", [])]) world0
      Error.ErrNotAuthorized).2.1 "pl-1" (by rfl) (by decide)).1 (by decide),
   ((handlers_error_signals memRouter (mkRequest alice [("id", "nope", [])]) world0
      Error.ErrNotFound).2.1 "nope" (by rfl) (by decide)).2 (by decide),
   (handlers_error_signals memRouter (mkRequest alice [("playlistId", "nope", [])]) world0
      Error.ErrNotFound).2.2.1 (by decide) (by decide) (by decide),
   ((handlers_error_signals memRouter (mkRequest alice []) world0
      Error.ErrNotFound).2.2.2.2.1 { user := alice } "nope" (by rfl)).1 (by decide)⟩

/-- C9: `CreatePlaylist` stops at validation exactly when the playlistId and
the name parameter are both empty. It then returns the validation error and
leaves the world as it was: no transaction, no datastore call. In every other
case it opens the transaction of `create`, called with the decoded playlistId,
name and songId list as they are, and goes on from the result of `create`. -/
theorem CreatePlaylist_validation {σ : Type} (api : Router σ) (r : Request)
    (w : World σ) :
    ((ParamString r "playlistId" = "" ∧ ParamString r "name" = "") →
      CreatePlaylist api r w =
        ((none, some (Error.New "required parameter name is missing")), w)) ∧
    (¬ (ParamString r "playlistId" = "" ∧ ParamString r "name" = "") →
      (∃ rest, (CreatePlaylist api r w).2.calls = w.calls ++ Call.WithTx :: rest) ∧
      CreatePlaylist api r w =
        (match create api r.Context (ParamString r "playlistId") (ParamString r "name")
            (ParamStrings r "songId") w with
        | ((_, some err), w1) => ((none, some err), w1)
        | ((id, none), w1) => getPlaylist api r.Context id w1)) ∧
    ((CreatePlaylist api r w).2.calls = w.calls ↔
      (ParamString r "playlistId" = "" ∧ ParamString r "name" = "")) := by
  have hstop : (ParamString r "playlistId" = "" ∧ ParamString r "name" = "") →
      CreatePlaylist api r w =
        ((none, some (Error.New "required parameter name is missing")), w) := by
    intro h
    unfold CreatePlaylist
    simp only [h, and_self, if_true]
  have hgo : ¬ (ParamString r "playlistId" = "" ∧ ParamString r "name" = "") →
      ∃ rest, (CreatePlaylist api r w).2.calls = w.calls ++ Call.WithTx :: rest := by
    intro h
    rw [CreatePlaylist_eq api r w h]
    obtain ⟨rest, hrest⟩ := create_calls_begin api r.Context (ParamString r "playlistId")
      (ParamString r "name") (ParamStrings r "songId") w
    rcases hc : create api r.Context (ParamString r "playlistId") (ParamString r "name")
        (ParamStrings r "songId") w with ⟨⟨id, _ | e2⟩, w1⟩
    · rw [hc] at hrest
      refine ⟨rest ++ [Call.GetWithTracks id true], ?_⟩
      simp only [getPlaylist_calls]
      simp only [] at hrest
      rw [hrest]
      simp
    · rw [hc] at hrest
      exact ⟨rest, hrest⟩
  refine ⟨hstop, fun h => ⟨hgo h, CreatePlaylist_eq api r w h⟩, ?_, ?_⟩
  · intro hcalls
    by_contra h
    obtain ⟨rest, hrest⟩ := hgo h
    rw [hcalls] at hrest
    have hlen := congrArg List.length hrest
    simp at hlen
  · intro h
    rw [hstop h]

/-- C9, at concrete inputs: a request with neither playlistId nor name stops
at validation with the world untouched; a request with a name opens the
transaction. -/
theorem CreatePlaylist_validation_witness :
    (CreatePlaylist memRouter (mkRequest alice [("songId", "a", [])]) world0).1 =
      (none, some (Error.New "required parameter name is missing")) ∧
    (CreatePlaylist memRouter (mkRequest alice [("songId", "a", [])]) world0).2.calls = [] ∧
    (∃ rest, (CreatePlaylist memRouter
        (mkRequest alice [("name", "new", []), ("songId", "a", [])]) world0).2.calls =
      Call.WithTx :: rest) :=
  have h1 := (CreatePlaylist_validation memRouter (mkRequest alice [("songId", "a", [])])
    world0).1 (by decide)
  have h2 := ((CreatePlaylist_validation memRouter
    (mkRequest alice [("name", "new", []), ("songId", "a", [])]) world0).2.1 (by decide)).1
  ⟨by rw [h1], by rw [h1]; rfl, h2⟩


/-- RemoveAt keeps exactly the elements whose position is not listed, in their
original order. -/
theorem removeAtFrom_eq_filter (R : List Int) (S : List String) (n : Nat) :
    removeAtFrom R n S =
      ((S.enumFrom n).filter (fun x => decide ((x.1 : Int) ∉ R))).map Prod.snd := by
  induction S generalizing n with
  | nil => rfl
  | cons t ts ih =>
    by_cases h : (n : Int) ∈ R
    · simp [removeAtFrom, List.enumFrom, List.filter_cons, h, ih]
    · simp [removeAtFrom, List.enumFrom, List.filter_cons, h, ih]

/-- RemoveAt depends only on which positions are listed, not on their order or
multiplicity. -/
theorem removeAtFrom_congr (R R2 : List Int) (h : ∀ i : Int, i ∈ R2 ↔ i ∈ R)
    (S : List String) (n : Nat) : removeAtFrom R2 n S = removeAtFrom R n S := by
  induction S generalizing n with
  | nil => rfl
  | cons t ts ih => simp [removeAtFrom, h, ih]

/-- RemoveAt ignores the listed positions that are out of range. -/
theorem removeAtFrom_in_range (R : List Int) (S : List String) (n : Nat) (bound : Int)
    (hb : (n : Int) + S.length ≤ bound) :
    removeAtFrom (R.filter (fun i => decide (0 ≤ i ∧ i < bound))) n S = removeAtFrom R n S := by
  induction S generalizing n with
  | nil => rfl
  | cons t ts ih =>
    have hlen : ((t :: ts).length : Int) = (ts.length : Int) + 1 := by simp
    rw [hlen] at hb
    have h0 : (0 : Int) ≤ (n : Int) := Int.ofNat_nonneg n
    have hl : (0 : Int) ≤ (ts.length : Int) := Int.ofNat_nonneg _
    have hn : (n : Int) < bound := by omega
    have hnext : ((n + 1 : Nat) : Int) + ts.length ≤ bound := by push_cast; omega
    have hmem : ((n : Int) ∈ R.filter (fun i => decide (0 ≤ i ∧ i < bound))) ↔ (n : Int) ∈ R := by
      simp [List.mem_filter, h0, hn]
    simp only [removeAtFrom, hmem, ih (n + 1) hnext]

/-- The metadata step leaves identity, owner, kind and track list alone. -/
theorem applyMetadata_frame (name comment : Option String) (pub : Option Bool)
    (pls : Playlist) :
    (applyMetadata name comment pub pls).ID = pls.ID ∧
    (applyMetadata name comment pub pls).OwnerID = pls.OwnerID ∧
    (applyMetadata name comment pub pls).Rules = pls.Rules ∧
    (applyMetadata name comment pub pls).Tracks = pls.Tracks := by
  cases name <;> cases comment <;> cases pub <;> exact ⟨rfl, rfl, rfl, rfl⟩

/-- The Mutation Engine on an explicit playlist of the acting user: it puts
the entity with the listed positions removed and the ids appended. -/
theorem Update_explicit_owner {σ : Type} (ds : DataStore σ) (catalog : String → Option Int)
    (ctx : Context) (s : σ) (P : Playlist) (name comment : Option String)
    (pub : Option Bool) (A : List String) (R : List Int)
    (hget : ds.Get ctx s P.ID = Except.ok P) (howner : (getUser ctx).ID = P.OwnerID)
    (hexplicit : P.IsSmartPlaylist = false) :
    ∃ stored : Playlist,
      stored.ID = P.ID ∧ stored.Rules = P.Rules ∧
      stored.Tracks = removeAtFrom R 0 P.Tracks ++ A ∧
      stored.SongCount = (stored.Tracks.length : Int) ∧
      Playlists.Update ds catalog ctx s P.ID name comment pub A R =
        (match (ds.Put ctx s stored).2.2 with
        | none => ((ds.Put ctx s stored).1, none)
        | some err => (s, some err)) := by
  obtain ⟨hID, _, hRules, hTracks⟩ := applyMetadata_frame name comment pub P
  have hsmart : (applyMetadata name comment pub P).IsSmartPlaylist = false := by
    unfold Playlist.IsSmartPlaylist at hexplicit ⊢
    rw [hRules]
    exact hexplicit
  refine ⟨refreshCounters catalog
    (((applyMetadata name comment pub P).RemoveTracks R).AddTracks A), hID, hRules, ?_, rfl, ?_⟩
  · simp [refreshCounters, Playlist.AddTracks, Playlist.RemoveTracks, hTracks]
  · obtain ⟨Get, GetAll, GetWithTracks, Put, Delete⟩ := ds
    simp only [] at hget
    unfold Playlists.Update
    simp only [hget, howner, hsmart, ne_eq, not_true_eq_false, ite_false, Bool.false_eq_true,
      false_and]
    rcases hput : Put ctx s (refreshCounters catalog
      (((applyMetadata name comment pub P).RemoveTracks R).AddTracks A)) with ⟨s1, p1, _ | e⟩ <;>
      simp [hput]

/-- C5: for an explicit playlist P of the caller with track list S,
`UpdatePlaylist`, with the Mutation Engine as its playlists service, decoded
positions R and decoded ids A, puts P with the track list made of the elements
of S whose 0-based position is not in R, in their original order, followed by
A. The list is the same for any other listing of the same positions and when
the out-of-range positions are dropped from R. When Put accepts the entity the
handler answers with the empty successful response and the store is the one
Put produced. -/
theorem UpdatePlaylist_remove_then_append {σ : Type} (api : Router σ)
    (catalog : String → Option Int) (r : Request) (w : World σ) (P : Playlist)
    (R : List Int) (A : List String)
    (hpid : requiredParamString r "playlistId" = Except.ok P.ID)
    (hget : api.ds.Get r.Context w.store P.ID = Except.ok P)
    (howner : (getUser r.Context).ID = P.OwnerID)
    (hexplicit : P.IsSmartPlaylist = false)
    (hR : api.ParamInts r "songIndexToRemove" = R)
    (hA : ParamStrings r "songIdToAdd" = A)
    (hput : ∀ q : Playlist, q.ID = P.ID → (api.ds.Put r.Context w.store q).2.2 = none) :
    ∃ stored : Playlist,
      stored.ID = P.ID ∧
      stored.Tracks =
        ((P.Tracks.enum.filter (fun x => decide ((x.1 : Int) ∉ R))).map Prod.snd) ++ A ∧
      (∀ R2 : List Int, (∀ i : Int, i ∈ R2 ↔ i ∈ R) →
        stored.Tracks = removeAtFrom R2 0 P.Tracks ++ A) ∧
      stored.Tracks =
        removeAtFrom (R.filter (fun i => decide (0 ≤ i ∧ i < (P.Tracks.length : Int)))) 0
          P.Tracks ++ A ∧
      (UpdatePlaylist (withEngine api catalog) r w).1 = (some newResponse, none) ∧
      (UpdatePlaylist (withEngine api catalog) r w).2.store =
        (api.ds.Put r.Context w.store stored).1 := by
  obtain ⟨_, hstore, hres⟩ := UpdatePlaylist_eq (withEngine api catalog) r w P.ID hpid
  obtain ⟨stored, hID, _, hTracks, _, hupd⟩ := Update_explicit_owner api.ds catalog r.Context
    w.store P ((r.query "name").map Prod.fst) ((r.query "comment").map Prod.fst)
    ((r.query "public").map (fun _ => api.ParamBool r "public" false)) A R hget howner
    hexplicit
  have hu : (withEngine api catalog).Update r.Context w.store P.ID
      ((r.query "name").map Prod.fst) ((r.query "comment").map Prod.fst)
      ((r.query "public").map (fun _ => (withEngine api catalog).ParamBool r "public" false))
      (ParamStrings r "songIdToAdd") ((withEngine api catalog).ParamInts r "songIndexToRemove")
      = ((api.ds.Put r.Context w.store stored).1, none) := by
    have h1 : (withEngine api catalog).ParamInts r "songIndexToRemove" = R := hR
    have h2 : (withEngine api catalog).ParamBool = api.ParamBool := rfl
    have h3 : (withEngine api catalog).Update = Playlists.Update api.ds catalog := rfl
    rw [h1, h2, h3, hA, hupd, hput stored hID]
  rw [hu] at hstore hres
  refine ⟨stored, hID, ?_, ?_, ?_, hres, hstore⟩
  · rw [hTracks, removeAtFrom_eq_filter]
    rfl
  · intro R2 h
    rw [hTracks, removeAtFrom_congr R R2 h]
  · rw [hTracks, removeAtFrom_in_range R P.Tracks 0 _ (by simp)]

/-- C5, at the input of the spec: the playlist with tracks a, b, c, updated
with position 1 to remove and d to add, is left with a, c, d. -/
theorem UpdatePlaylist_remove_then_append_witness :
    (∃ stored : Playlist, stored.Tracks = ["a", "c", "d"] ∧
      (UpdatePlaylist memRouter (mkRequest alice [("playlistId", "pl-1", []),
        ("songIndexToRemove", "1", []), ("songIdToAdd", "d", [])]) world0).2.store =
        (memPut { user := alice } store0 stored).1) ∧
    ((UpdatePlaylist memRouter (mkRequest alice [("playlistId", "pl-1", []),
        ("songIndexToRemove", "1", []), ("songIdToAdd", "d", [])]) world0).2.store.map
      (fun p => (p.ID, p.Tracks))) = [("pl-1", ["a", "c", "d"]), ("pl-2", [])] :=
  have h := UpdatePlaylist_remove_then_append memRouter (fun _ => some 180)
    (mkRequest alice [("playlistId", "pl-1", []), ("songIndexToRemove", "1", []),
      ("songIdToAdd", "d", [])]) world0 plsABC [1] ["d"]
    (by rfl) (by rfl) (by decide) (by decide) (by decide) (by decide)
    (fun q hq => by
      show (memPut { user := alice } store0 q).2.2 = none
      unfold memPut
      have hq2 : q.ID = "pl-1" := hq
      simp [hq2, store0, plsABC])
  ⟨h.imp (fun _ hs => ⟨hs.2.1, hs.2.2.2.2.2⟩), by decide⟩

end Navidrome
